import Mathlib

/-!
Verification of the tenbio structure-prediction scheduling layer.

Shallow embedding of the job-scheduling subsystem of the repository:
the model residency managers (`get_runner` in
services/protenix/app/prediction_worker.py, `get_model` in
esm-service/app/prediction_worker.py), the job store / queue / worker
loop, the backend HTTP handlers (protenix-service/app/main.py,
esm-service/app/main.py) and the gateway router
(api/app/routes/structure.py).

Modelling conventions:
- Python dicts keyed by uuid strings become association lists keyed by
  `Nat`; fresh uuids become a fresh counter (only uniqueness matters).
- Wall-clock timestamps (`datetime.now`) become a `Nat` instant passed
  into each state transition.
- Floating-point confidence values are opaque to every claim; they are
  carried as `Int` placeholders.
- The filesystem output directory of a job is modelled as the list of
  file names the predictor wrote into it.
- The opaque ML calls (`infer_predict`, `esm.pretrained...`) and the
  filesystem side effects inside the worker's try-block are an oracle
  `ExecOutcome`: either the files produced, or the raised exception's
  message.
-/

namespace Tenbio

/-- Remove every binding of key `k` from an association list. -/
def dictRemove {α : Type} (k : Nat) : List (Nat × α) → List (Nat × α)
  | [] => []
  | p :: rest => if p.1 = k then dictRemove k rest else p :: dictRemove k rest

/-- Overwriting update of an association list, as Python dict assignment
`d[k] = v`. -/
def dictSet {α : Type} (l : List (Nat × α)) (k : Nat) (v : α) : List (Nat × α) :=
  (k, v) :: dictRemove k l

@[simp] theorem lookup_dictSet_self {α : Type} (l : List (Nat × α)) (k : Nat) (v : α) :
    (dictSet l k v).lookup k = some v := by
  simp [dictSet, List.lookup]

theorem lookup_dictRemove_ne {α : Type} (l : List (Nat × α)) {k k' : Nat}
    (h : k' ≠ k) : (dictRemove k l).lookup k' = l.lookup k' := by
  induction l with
  | nil => rfl
  | cons p rest ih =>
    rcases p with ⟨a, b⟩
    by_cases hp : a = k
    · subst hp
      have hk : (k' == a) = false := by simp [h]
      simp [dictRemove, List.lookup, hk, ih]
    · simp only [dictRemove, hp, if_false]
      cases hka : (k' == a) <;> simp [List.lookup, hka, ih]

theorem lookup_dictSet_ne {α : Type} (l : List (Nat × α)) {k k' : Nat} (v : α)
    (h : k' ≠ k) : (dictSet l k v).lookup k' = l.lookup k' := by
  have hk : (k' == k) = false := by simp [h]
  simp only [dictSet, List.lookup, hk]
  exact lookup_dictRemove_ne l h

/-! ## Data model (protenix-service/app/schemas.py, api/app/schemas/structure.py) -/

/-- Chain type tag, the `Literal` of `ChainInput.type`. -/
inductive ChainType : Type
  | protein | dna | rna | ligand | ion
deriving DecidableEq, Repr

/-- `ChainInput` from protenix-service/app/schemas.py (identical shape in
api/app/schemas/structure.py). Optional string fields are `Option String`;
a Python falsy string (`None` or `""`) is `none` or `some ""`. -/
structure ChainInput : Type where
  type : ChainType
  sequence : Option String := none
  ligand_id : Option String := none
  ion_id : Option String := none
  count : Nat := 1
deriving DecidableEq, Repr

/-- Python truthiness test `not chain.sequence` for an optional string. -/
def optStrBlank : Option String → Bool
  | none => true
  | some s => s.isEmpty

/-- Backend `PredictionRequest` (protenix-service/app/schemas.py): carries
`num_seeds` and `num_samples`. -/
structure PredictionRequest : Type where
  name : String := "prediction"
  sequences : List ChainInput
  model_name : String := "protenix_base_default_v1.0.0"
  num_seeds : Nat := 1
  num_samples : Nat := 5
deriving DecidableEq, Repr

/-- Job status enum of `JobStatus.status`. -/
inductive Status : Type
  | queued | running | completed | failed
deriving DecidableEq, Repr

/-- `ConfidenceScores`; the float values are opaque placeholders. -/
structure ConfidenceScores : Type where
  plddt : Option Int := none
  ptm : Option Int := none
  iptm : Option Int := none
  ranking_score : Option Int := none
deriving DecidableEq, Repr

/-- `JobStatus` record of the backend job store. -/
structure JobStatus : Type where
  job_id : Nat
  status : Status
  progress : Option String := none
  created_at : Nat
  started_at : Option Nat := none
  completed_at : Option Nat := none
  error : Option String := none
  confidence : Option ConfidenceScores := none
  structure_available : Bool := false
deriving DecidableEq, Repr

/-! ## Model catalogs -/

/-- Keys of `MODEL_CATALOG` in services/protenix/app/prediction_worker.py. -/
def protenixModelNames : List String :=
  [ "protenix_base_default_v1.0.0"
  , "protenix_base_20250630_v1.0.0"
  , "protenix_base_default_v0.5.0"
  , "protenix_base_constraint_v0.5.0"
  , "protenix_mini_esm_v0.5.0"
  , "protenix_mini_ism_v0.5.0"
  , "protenix_mini_default_v0.5.0"
  , "protenix_tiny_default_v0.5.0" ]

/-- Keys of `MODEL_CATALOG` in esm-service/app/prediction_worker.py. -/
def esmModelNames : List String := ["esmfold_v1"]

/-! ## Model residency manager

`get_runner` (services/protenix/app/prediction_worker.py, lines 109-153)
and `get_model` (esm-service/app/prediction_worker.py, lines 44-87) are
structurally identical: fast path when the requested model is resident,
otherwise under the lock unload the resident model (clearing the
resident name and freeing accelerator memory) before loading the
requested one.  To make the "at most one model resident" property
non-trivial we track accelerator memory as a multiset of loaded models:
loading pushes a name, unloading erases the recorded name.  The
function returns the trace of intermediate residency states it passes
through, so the invariant can be checked at every instant. -/

/-- Residency state: the recorded `_loaded_model_name`, plus the models
actually occupying accelerator memory. -/
structure ResidencyState : Type where
  loaded : Option String
  resident : List String
deriving DecidableEq, Repr

/-- `del _runner; _loaded_model_name = None; torch.cuda.empty_cache()`:
clear the recorded name and free the memory of the model it named. -/
def unloadModel (s : ResidencyState) (a : String) : ResidencyState :=
  { loaded := none, resident := s.resident.erase a }

/-- `_runner = get_default_runner(...); _loaded_model_name = model_name`:
put the model into accelerator memory and record it. -/
def loadModel (s : ResidencyState) (m : String) : ResidencyState :=
  { loaded := some m, resident := m :: s.resident }

/-- The shared body of `get_runner` / `get_model`: catalog check, fast
path, unload-then-load swap.  Returns the trace of residency states, in
order, that the call passes through (initial state included). -/
def ensureLoadedTrace (catalog : List String) (s : ResidencyState) (m : String) :
    Except String (List ResidencyState) :=
  if m ∈ catalog then
    if s.loaded = some m then .ok [s]
    else
      match s.loaded with
      | some a =>
          let s1 := unloadModel s a
          .ok [s, s1, loadModel s1 m]
      | none => .ok [s, loadModel s m]
  else .error ("Unknown model: " ++ m)

/-- `get_runner` of the Protenix backend. -/
def get_runner (s : ResidencyState) (m : String) : Except String (List ResidencyState) :=
  ensureLoadedTrace protenixModelNames s m

/-- `get_model` of the ESM backend. -/
def get_model (s : ResidencyState) (m : String) : Except String (List ResidencyState) :=
  ensureLoadedTrace esmModelNames s m

/-- Well-formedness of a residency state: the accelerator holds exactly
the recorded model (or nothing). -/
def ResidencyInv (s : ResidencyState) : Prop :=
  s.resident = s.loaded.toList

instance (s : ResidencyState) : Decidable (ResidencyInv s) := by
  unfold ResidencyInv; infer_instance

/-- Conclusion of the residency claim for one call producing trace `tr`
from state `s` requesting model `m`. -/
def ResidencyOk (s : ResidencyState) (m : String) (tr : List ResidencyState) : Prop :=
  (∀ t ∈ tr, t.resident.length ≤ 1) ∧
  (tr.getLastD s).loaded = some m ∧
  ResidencyInv (tr.getLastD s) ∧
  (∀ a, s.loaded = some a → a ≠ m →
    a ∉ (tr.getLastD s).resident ∧ ∀ t ∈ tr, ¬(a ∈ t.resident ∧ m ∈ t.resident))

theorem ensureLoaded_residency (catalog : List String) (s : ResidencyState)
    (m : String) (tr : List ResidencyState) (hinv : ResidencyInv s)
    (h : ensureLoadedTrace catalog s m = .ok tr) : ResidencyOk s m tr := by
  unfold ensureLoadedTrace at h
  by_cases hc : m ∈ catalog
  · simp only [hc, if_true] at h
    by_cases hfast : s.loaded = some m
    · simp only [hfast, if_true] at h
      cases h
      unfold ResidencyInv at hinv
      refine ⟨?_, ?_, ?_, ?_⟩
      · intro t ht
        simp only [List.mem_singleton] at ht
        subst ht
        rw [hinv, hfast]
        simp
      · simpa [List.getLastD] using hfast
      · simpa [List.getLastD, ResidencyInv] using hinv
      · intro a ha hne
        rw [hfast] at ha
        cases ha
        exact absurd rfl hne
    · simp only [hfast, if_false] at h
      unfold ResidencyInv at hinv
      cases hl : s.loaded with
      | some a =>
        rw [hl] at h
        cases h
        rw [hl] at hinv
        simp only [Option.toList] at hinv
        have hne : a ≠ m := by
          intro heq; exact hfast (by rw [hl, heq])
        refine ⟨?_, ?_, ?_, ?_⟩
        · intro t ht
          simp only [List.mem_cons, List.mem_singleton] at ht
          rcases ht with rfl | rfl | rfl | hf
          · rw [hinv]; simp
          · simp [unloadModel, hinv, List.erase_cons_head]
          · simp [loadModel, unloadModel, hinv, List.erase_cons_head]
          · cases hf
        · simp [List.getLastD, loadModel]
        · simp [List.getLastD, loadModel, unloadModel, hinv,
            List.erase_cons_head, ResidencyInv]
        · intro b hb hbm
          rw [hl] at hb
          cases hb
          constructor
          · simp only [List.getLastD, loadModel, unloadModel, hinv,
              List.erase_cons_head]
            simp [hbm, Ne.symm hbm]
          · intro t ht
            simp only [List.mem_cons, List.mem_singleton] at ht
            rcases ht with rfl | rfl | rfl | hf
            · rw [hinv]
              rintro ⟨_, hm⟩
              simp only [List.mem_singleton] at hm
              exact hne hm.symm
            · simp only [unloadModel, hinv, List.erase_cons_head]
              rintro ⟨hcon, _⟩
              cases hcon
            · simp only [loadModel, unloadModel, hinv, List.erase_cons_head]
              rintro ⟨hcon, _⟩
              simp only [List.mem_cons, List.not_mem_nil] at hcon
              rcases hcon with hcon | hcon
              · exact hne hcon
              · cases hcon
            · cases hf
      | none =>
        rw [hl] at h
        cases h
        rw [hl] at hinv
        simp only [Option.toList] at hinv
        refine ⟨?_, ?_, ?_, ?_⟩
        · intro t ht
          simp only [List.mem_cons, List.mem_singleton] at ht
          rcases ht with rfl | rfl | hf
          · rw [hinv]; simp
          · simp [loadModel, hinv]
          · cases hf
        · simp [List.getLastD, loadModel]
        · simp [List.getLastD, loadModel, hinv, ResidencyInv]
        · intro a ha _
          rw [hl] at ha
          cases ha
  · simp only [hc, if_false] at h
    cases h

/-- C1: on both backends (Protenix `get_runner`, ESM `get_model`), when
the residency manager is asked for a model while a different model is
resident, the resident model is fully unloaded — resident name cleared,
accelerator memory freed — before the requested one is loaded, so no
state the call passes through has two models resident: every state of
the trace holds at most one model, the final state holds exactly the
requested model, and the previously resident model is never resident
simultaneously with the requested one. -/
theorem residency_at_most_one_model :
    (∀ (s : ResidencyState) (m : String) (tr : List ResidencyState),
      ResidencyInv s → get_runner s m = .ok tr → ResidencyOk s m tr) ∧
    (∀ (s : ResidencyState) (m : String) (tr : List ResidencyState),
      ResidencyInv s → get_model s m = .ok tr → ResidencyOk s m tr) :=
  ⟨fun s m tr hinv h => ensureLoaded_residency protenixModelNames s m tr hinv h,
   fun s m tr hinv h => ensureLoaded_residency esmModelNames s m tr hinv h⟩

/-- Concrete run of C1: the base model is resident, the mini model is
requested; the swap unloads the base model before loading the mini
model. -/
theorem residency_at_most_one_model_witness :
    ResidencyInv ⟨some "protenix_base_default_v1.0.0", ["protenix_base_default_v1.0.0"]⟩ ∧
    get_runner ⟨some "protenix_base_default_v1.0.0", ["protenix_base_default_v1.0.0"]⟩
        "protenix_mini_esm_v0.5.0" =
      .ok [ ⟨some "protenix_base_default_v1.0.0", ["protenix_base_default_v1.0.0"]⟩
          , ⟨none, []⟩
          , ⟨some "protenix_mini_esm_v0.5.0", ["protenix_mini_esm_v0.5.0"]⟩ ] ∧
    ResidencyOk ⟨some "protenix_base_default_v1.0.0", ["protenix_base_default_v1.0.0"]⟩
      "protenix_mini_esm_v0.5.0"
      [ ⟨some "protenix_base_default_v1.0.0", ["protenix_base_default_v1.0.0"]⟩
      , ⟨none, []⟩
      , ⟨some "protenix_mini_esm_v0.5.0", ["protenix_mini_esm_v0.5.0"]⟩ ] := by
  refine ⟨by decide, by rfl, ?_⟩
  exact residency_at_most_one_model.1 _ _ _ (by decide) (by rfl)

/-! ## Output-file scan

`_find_output_cif` (services/protenix/app/prediction_worker.py, lines
289-301).  A job's output directory is modelled as the list of file
names it contains; `rglob "*.cif"` keeps the names ending in `.cif`. -/

/-- Python `"rank" in f.name`. -/
def containsRank (s : String) : Bool := (s.splitOn "rank").length ≠ 1

/-- `_find_output_cif`: no CIF file → `None`; otherwise prefer the
lexicographically first name containing `rank`, else the first CIF. -/
def findOutputCif (files : List String) : Option String :=
  match files.filter (fun f => f.endsWith ".cif") with
  | [] => none
  | c :: cs =>
    match (c :: cs).filter containsRank with
    | [] => some c
    | r :: rs => ((r :: rs).mergeSort (fun a b => a ≤ b)).head?

/-! ## Job store, queue and worker loop

services/protenix/app/prediction_worker.py (the ESM worker, lines
219-294 of esm-service/app/prediction_worker.py, is structurally
identical up to its chain validation and predictor, which live inside
the try-block oracle). -/

/-- The per-backend module state: `_jobs`, `_job_requests`,
`_job_output_dirs`, `_job_queue`, plus the fresh-id counter standing in
for `uuid.uuid4()`. -/
structure WorkerSvc : Type where
  jobs : List (Nat × JobStatus)
  requests : List (Nat × PredictionRequest)
  outputDirs : List (Nat × List String)
  queue : List Nat
  nextId : Nat
deriving DecidableEq, Repr

/-- The fresh job record written by `submit_job`. -/
def queuedRecord (jid now : Nat) : JobStatus :=
  { job_id := jid, status := .queued, progress := some "Waiting in queue",
    created_at := now }

/-- `submit_job` (lines 261-276): store the `queued` record, store the
request, then enqueue the id.  Returns the job id. -/
def submit_job (s : WorkerSvc) (req : PredictionRequest) (now : Nat) : WorkerSvc × Nat :=
  let jid := s.nextId
  ({ s with
      jobs := dictSet s.jobs jid (queuedRecord jid now),
      requests := dictSet s.requests jid req,
      queue := s.queue ++ [jid],
      nextId := jid + 1 }, jid)

/-- The `running` record the worker writes right after dequeuing
(worker loop lines 339-346); reads `created_at` from the stored record. -/
def runningRecord (old : JobStatus) (jid now : Nat) : JobStatus :=
  { job_id := jid, status := .running, progress := some "Initializing model",
    created_at := old.created_at, started_at := some now }

/-- The `completed` record (worker loop lines 381-391): keeps
`created_at`/`started_at` of the current record, sets confidence and
whether a structure file was found. -/
def completedRecord (cur : JobStatus) (jid now : Nat)
    (conf : Option ConfidenceScores) (structAvail : Bool) : JobStatus :=
  { job_id := jid, status := .completed, progress := some "Done",
    created_at := cur.created_at, started_at := cur.started_at,
    completed_at := some now, confidence := conf,
    structure_available := structAvail }

/-- The `failed` record written by the `except` handler (worker loop
lines 394-405): carries `str(e)` in `error`. -/
def failedRecord (cur : JobStatus) (jid now : Nat) (msg : String) : JobStatus :=
  { job_id := jid, status := .failed, progress := some "Failed",
    created_at := cur.created_at, started_at := cur.started_at,
    completed_at := some now, error := some msg }

/-- Outcome of the worker's try-block up to and including the predictor
call: either the list of files the predictor left in the job's output
directory together with the parsed confidence, or the message of the
exception raised at whichever step failed (chain validation, output-dir
creation, model loading, inference, result parsing). -/
inductive ExecOutcome : Type
  | ok (files : List String) (conf : Option ConfidenceScores)
  | exn (msg : String)
deriving DecidableEq, Repr

/-- One iteration of `_worker_loop` for a dequeued id `jid`.  A missing
request means `continue`; the transient progress write inside the
try-block only mutates the running record's progress text and is
invisible in the post-iteration state.  (A missing job record would be
an uncaught `KeyError`; it is unreachable because `submit_job` stores
the record before enqueuing the id.) -/
def processJob (exec : Nat → PredictionRequest → ExecOutcome) (s : WorkerSvc)
    (jid now : Nat) : WorkerSvc :=
  match s.requests.lookup jid with
  | none => s
  | some req =>
    match s.jobs.lookup jid with
    | none => s
    | some old =>
      let run := runningRecord old jid now
      let s1 : WorkerSvc := { s with jobs := dictSet s.jobs jid run }
      match exec jid req with
      | .ok files conf =>
          { s1 with
            outputDirs := dictSet s1.outputDirs jid files,
            jobs := dictSet s1.jobs jid
              (completedRecord run jid (now + 1) conf (findOutputCif files).isSome) }
      | .exn msg =>
          { s1 with jobs := dictSet s1.jobs jid (failedRecord run jid (now + 1) msg) }

/-- The worker loop over a list of dequeued ids. -/
def workerRunAux (exec : Nat → PredictionRequest → ExecOutcome) :
    List Nat → WorkerSvc → Nat → WorkerSvc
  | [], s, _ => s
  | jid :: rest, s, now => workerRunAux exec rest (processJob exec s jid now) (now + 2)

/-- `_worker_loop` draining everything currently queued. -/
def workerRun (exec : Nat → PredictionRequest → ExecOutcome) (s : WorkerSvc)
    (now : Nat) : WorkerSvc :=
  workerRunAux exec s.queue { s with queue := [] } now

theorem processJob_requests (exec : Nat → PredictionRequest → ExecOutcome)
    (s : WorkerSvc) (jid now : Nat) :
    (processJob exec s jid now).requests = s.requests := by
  unfold processJob
  cases hreq : s.requests.lookup jid with
  | none => rfl
  | some req =>
    cases hjob : s.jobs.lookup jid with
    | none => rfl
    | some old =>
      dsimp only
      cases hx : exec jid req <;> rfl

theorem processJob_jobs_ne (exec : Nat → PredictionRequest → ExecOutcome)
    (s : WorkerSvc) (jid now : Nat) {j : Nat} (h : j ≠ jid) :
    (processJob exec s jid now).jobs.lookup j = s.jobs.lookup j := by
  unfold processJob
  cases hreq : s.requests.lookup jid with
  | none => rfl
  | some req =>
    cases hjob : s.jobs.lookup jid with
    | none => rfl
    | some old =>
      dsimp only
      cases hx : exec jid req with
      | ok files conf => simp [lookup_dictSet_ne _ _ h]
      | exn msg => simp [lookup_dictSet_ne _ _ h]

theorem workerRunAux_jobs_notin (exec : Nat → PredictionRequest → ExecOutcome)
    (l : List Nat) (s : WorkerSvc) (now : Nat) {j : Nat} (h : j ∉ l) :
    (workerRunAux exec l s now).jobs.lookup j = s.jobs.lookup j := by
  induction l generalizing s now with
  | nil => rfl
  | cons jid rest ih =>
    simp only [List.mem_cons, not_or] at h
    rw [workerRunAux, ih _ _ h.2, processJob_jobs_ne _ _ _ _ h.1]

/-- What the worker leaves in the store for a job with request `req`:
terminal status matching the try-block outcome, error message captured
on failure. -/
def JobSettled (exec : Nat → PredictionRequest → ExecOutcome) (s' : WorkerSvc)
    (jid : Nat) (req : PredictionRequest) : Prop :=
  match exec jid req with
  | .ok files conf =>
      ∃ r, s'.jobs.lookup jid = some r ∧ r.status = .completed ∧
        r.error = none ∧ r.confidence = conf ∧
        r.structure_available = (findOutputCif files).isSome
  | .exn msg =>
      ∃ r, s'.jobs.lookup jid = some r ∧ r.status = .failed ∧ r.error = some msg

theorem processJob_settles (exec : Nat → PredictionRequest → ExecOutcome)
    (s : WorkerSvc) (jid now : Nat) (req : PredictionRequest)
    (hreq : s.requests.lookup jid = some req)
    (hjob : (s.jobs.lookup jid).isSome) :
    JobSettled exec (processJob exec s jid now) jid req := by
  rcases Option.isSome_iff_exists.mp hjob with ⟨old, hold⟩
  unfold JobSettled processJob
  rw [hreq, hold]
  dsimp only
  cases hx : exec jid req with
  | ok files conf =>
      refine ⟨completedRecord (runningRecord old jid now) jid (now + 1) conf
        (findOutputCif files).isSome, ?_, rfl, rfl, rfl, rfl⟩
      exact lookup_dictSet_self _ _ _
  | exn msg =>
      refine ⟨failedRecord (runningRecord old jid now) jid (now + 1) msg,
        ?_, rfl, rfl⟩
      exact lookup_dictSet_self _ _ _

theorem workerRunAux_settles (exec : Nat → PredictionRequest → ExecOutcome) :
    ∀ (l : List Nat) (s : WorkerSvc) (now : Nat), l.Nodup →
    (∀ j ∈ l, (s.jobs.lookup j).isSome) →
    ∀ jid ∈ l, ∀ req, s.requests.lookup jid = some req →
      JobSettled exec (workerRunAux exec l s now) jid req := by
  intro l
  induction l with
  | nil => intro s now _ _ jid h; cases h
  | cons j0 rest ih =>
    intro s now hnd hjobs jid hmem req hreq
    have hnd0 : j0 ∉ rest ∧ rest.Nodup := by
      simpa [List.nodup_cons] using hnd
    rcases List.mem_cons.mp hmem with rfl | hrest
    · -- the head job is settled by its own iteration and untouched afterwards
      have hset : JobSettled exec (processJob exec s jid now) jid req :=
        processJob_settles exec s jid now req hreq (hjobs jid (List.mem_cons_self _ _))
      rw [workerRunAux]
      unfold JobSettled at hset ⊢
      cases hx : exec jid req with
      | ok files conf =>
          rw [hx] at hset
          rcases hset with ⟨r, hr, h1, h2, h3, h4⟩
          exact ⟨r, by rw [workerRunAux_jobs_notin exec rest _ _ hnd0.1]; exact hr,
            h1, h2, h3, h4⟩
      | exn msg =>
          rw [hx] at hset
          rcases hset with ⟨r, hr, h1, h2⟩
          exact ⟨r, by rw [workerRunAux_jobs_notin exec rest _ _ hnd0.1]; exact hr,
            h1, h2⟩
    · -- a later job: the head iteration leaves its request and record alone
      have hne : jid ≠ j0 := fun he => hnd0.1 (he ▸ hrest)
      rw [workerRunAux]
      refine ih _ _ hnd0.2 ?_ jid hrest req ?_
      · intro j hj
        have hne' : j ≠ j0 := fun he => hnd0.1 (he ▸ hj)
        rw [processJob_jobs_ne _ _ _ _ hne']
        exact hjobs j (List.mem_cons_of_mem _ hj)
      · rw [processJob_requests]
        exact hreq

/-- C2: for every dequeued job whose execution raises at any step, the
worker catches the exception and transitions exactly that job to
`failed` carrying the exception's message, then keeps processing: every
other queued job — including those behind the failing one — still
reaches its own terminal state, and jobs outside the queue are
untouched.  The loop never stops because one job failed. -/
theorem worker_failures_isolated_loop_continues
    (exec : Nat → PredictionRequest → ExecOutcome) (s : WorkerSvc) (now : Nat)
    (hnd : s.queue.Nodup)
    (hjobs : ∀ j ∈ s.queue, (s.jobs.lookup j).isSome) :
    (∀ jid ∈ s.queue, ∀ req, s.requests.lookup jid = some req →
      JobSettled exec (workerRun exec s now) jid req) ∧
    (∀ j, j ∉ s.queue → (workerRun exec s now).jobs.lookup j = s.jobs.lookup j) := by
  constructor
  · intro jid hmem req hreq
    exact workerRunAux_settles exec s.queue _ now hnd (by simpa using hjobs)
      jid hmem req (by simpa using hreq)
  · intro j hj
    exact workerRunAux_jobs_notin exec s.queue _ now hj

/-- The empty module state at process start. -/
def initWorker : WorkerSvc := ⟨[], [], [], [], 0⟩

/-- A ligand-free single-protein request used in concrete runs. -/
def sampleProteinRequest : PredictionRequest :=
  { name := "t1"
  , sequences := [{ type := .protein, sequence := some "MVSK", count := 1 }]
  , model_name := "protenix_mini_esm_v0.5.0"
  , num_seeds := 1
  , num_samples := 1 }

/-- A second concrete request. -/
def sampleProteinRequest2 : PredictionRequest :=
  { sampleProteinRequest with name := "t2" }

/-- Concrete run of C2: job 0 (whose predictor raises "inference blew
up") is marked failed with that message, and job 1, submitted after it,
still completes. -/
theorem worker_failures_isolated_loop_continues_witness :
    ((submit_job (submit_job initWorker sampleProteinRequest 0).1
        sampleProteinRequest2 1).1.queue.Nodup ∧
      ∀ j ∈ (submit_job (submit_job initWorker sampleProteinRequest 0).1
        sampleProteinRequest2 1).1.queue,
        (((submit_job (submit_job initWorker sampleProteinRequest 0).1
          sampleProteinRequest2 1).1.jobs.lookup j).isSome : Prop)) ∧
    JobSettled
      (fun jid _ => if jid = 0 then .exn "inference blew up"
        else .ok ["rank_001.cif"] none)
      (workerRun
        (fun jid _ => if jid = 0 then .exn "inference blew up"
          else .ok ["rank_001.cif"] none)
        (submit_job (submit_job initWorker sampleProteinRequest 0).1
          sampleProteinRequest2 1).1 2)
      0 sampleProteinRequest ∧
    JobSettled
      (fun jid _ => if jid = 0 then .exn "inference blew up"
        else .ok ["rank_001.cif"] none)
      (workerRun
        (fun jid _ => if jid = 0 then .exn "inference blew up"
          else .ok ["rank_001.cif"] none)
        (submit_job (submit_job initWorker sampleProteinRequest 0).1
          sampleProteinRequest2 1).1 2)
      1 sampleProteinRequest2 := by
  refine ⟨⟨by decide, by decide⟩, ?_, ?_⟩
  · exact (worker_failures_isolated_loop_continues _ _ 2 (by decide) (by decide)).1
      0 (by decide) sampleProteinRequest (by decide)
  · exact (worker_failures_isolated_loop_continues _ _ 2 (by decide) (by decide)).1
      1 (by decide) sampleProteinRequest2 (by decide)

/-! ## The job lifecycle as a small-step system (C4)

Interleavings of the submit handler and the worker loop's individual
store writes, at the granularity at which `_jobs` is mutated. -/

/-- Worker micro-step: the `running` record written right after dequeue. -/
def beginJob (s : WorkerSvc) (jid : Nat) (old : JobStatus) (now : Nat) : WorkerSvc :=
  { s with jobs := dictSet s.jobs jid (runningRecord old jid now) }

/-- The in-place progress write inside the try-block
(`_jobs[job_id].progress = ...`). -/
def setJobProgress (s : WorkerSvc) (jid : Nat) (r : JobStatus) (p : String) :
    WorkerSvc :=
  { s with jobs := dictSet s.jobs jid { r with progress := some p } }

/-- Worker micro-step: success path — record the output directory and
write the `completed` record. -/
def completeJob (s : WorkerSvc) (jid : Nat) (cur : JobStatus) (now : Nat)
    (files : List String) (conf : Option ConfidenceScores) : WorkerSvc :=
  { s with
    outputDirs := dictSet s.outputDirs jid files,
    jobs := dictSet s.jobs jid
      (completedRecord cur jid now conf (findOutputCif files).isSome) }

/-- Worker micro-step: exception path — write the `failed` record. -/
def failJob (s : WorkerSvc) (jid : Nat) (cur : JobStatus) (now : Nat)
    (msg : String) : WorkerSvc :=
  { s with jobs := dictSet s.jobs jid (failedRecord cur jid now msg) }

/-- Whole-backend state: the module state plus the id the worker is
currently executing (between its `running` write and its terminal
write). -/
structure SchedState : Type where
  svc : WorkerSvc
  current : Option Nat
deriving DecidableEq, Repr

/-- One observable store mutation of the backend: a submission, or one
of the worker loop's writes for the job at the head of the queue. -/
inductive SchedStep : SchedState → SchedState → Prop
  | submit (σ : SchedState) (req : PredictionRequest) (now : Nat) :
      SchedStep σ ⟨(submit_job σ.svc req now).1, σ.current⟩
  | dequeue (σ : SchedState) (jid : Nat) (rest : List Nat)
      (req : PredictionRequest) (old : JobStatus) (now : Nat) :
      σ.current = none →
      σ.svc.queue = jid :: rest →
      σ.svc.requests.lookup jid = some req →
      σ.svc.jobs.lookup jid = some old →
      SchedStep σ ⟨beginJob { σ.svc with queue := rest } jid old now, some jid⟩
  | skip (σ : SchedState) (jid : Nat) (rest : List Nat) :
      σ.current = none →
      σ.svc.queue = jid :: rest →
      σ.svc.requests.lookup jid = none →
      SchedStep σ ⟨{ σ.svc with queue := rest }, none⟩
  | progress (σ : SchedState) (jid : Nat) (r : JobStatus) :
      σ.current = some jid →
      σ.svc.jobs.lookup jid = some r →
      SchedStep σ
        ⟨setJobProgress σ.svc jid r "Loading model and running inference", some jid⟩
  | finishOk (σ : SchedState) (jid : Nat) (r : JobStatus) (now : Nat)
      (files : List String) (conf : Option ConfidenceScores) :
      σ.current = some jid →
      σ.svc.jobs.lookup jid = some r →
      SchedStep σ ⟨completeJob σ.svc jid r now files conf, none⟩
  | finishErr (σ : SchedState) (jid : Nat) (r : JobStatus) (now : Nat)
      (msg : String) :
      σ.current = some jid →
      σ.svc.jobs.lookup jid = some r →
      SchedStep σ ⟨failJob σ.svc jid r now msg, none⟩

/-- The backend state at process start. -/
def initSched : SchedState := ⟨initWorker, none⟩

/-- Reachability from process start. -/
def Reach (σ : SchedState) : Prop :=
  Relation.ReflTransGen SchedStep initSched σ

/-- Structural invariant of reachable states: queued ids are distinct
and hold `queued` records, the in-flight id holds a `running` record
and is no longer queued, and ids at or above the counter are unused. -/
def GoodState (σ : SchedState) : Prop :=
  σ.svc.queue.Nodup ∧
  (∀ jid ∈ σ.svc.queue, ∃ r, σ.svc.jobs.lookup jid = some r ∧ r.status = .queued) ∧
  (∀ jid, σ.current = some jid →
    jid ∉ σ.svc.queue ∧
    ∃ r, σ.svc.jobs.lookup jid = some r ∧ r.status = .running) ∧
  (∀ jid, σ.svc.nextId ≤ jid → σ.svc.jobs.lookup jid = none) ∧
  (∀ jid ∈ σ.svc.queue, jid < σ.svc.nextId)

theorem initSched_good : GoodState initSched := by
  refine ⟨List.nodup_nil, ?_, ?_, ?_, ?_⟩
  · intro jid h; cases h
  · intro jid h; cases h
  · intro jid _; rfl
  · intro jid h; cases h

theorem goodState_preserved {σ σ' : SchedState} (hg : GoodState σ)
    (hstep : SchedStep σ σ') : GoodState σ' := by
  obtain ⟨hnd, hq, hc, hf, hb⟩ := hg
  cases hstep with
  | submit req now =>
    simp only [submit_job]
    have hfresh : σ.svc.nextId ∉ σ.svc.queue := fun hmem =>
      lt_irrefl _ (hb _ hmem)
    refine ⟨?_, ?_, ?_, ?_, ?_⟩
    · simpa [List.nodup_append] using ⟨hnd, hfresh⟩
    · intro jid hmem
      rcases List.mem_append.mp hmem with hmem | hone
      · have hlt : jid < σ.svc.nextId := hb _ hmem
        rw [lookup_dictSet_ne _ _ (Nat.ne_of_lt hlt)]
        exact hq _ hmem
      · have : jid = σ.svc.nextId := by simpa using hone
        subst this
        exact ⟨_, lookup_dictSet_self _ _ _, rfl⟩
    · intro jid hcur
      obtain ⟨hnotq, r, hr, hrun⟩ := hc jid hcur
      have hne : jid ≠ σ.svc.nextId := by
        intro he
        rw [he, hf _ (le_refl _)] at hr
        cases hr
      refine ⟨?_, r, ?_, hrun⟩
      · intro hmem
        rcases List.mem_append.mp hmem with hmem | hone
        · exact hnotq hmem
        · exact hne (by simpa using hone)
      · rw [lookup_dictSet_ne _ _ hne]; exact hr
    · intro jid hle
      have hle' : σ.svc.nextId + 1 ≤ jid := hle
      have hne : jid ≠ σ.svc.nextId := by omega
      rw [lookup_dictSet_ne _ _ hne]
      exact hf _ (by omega)
    · intro jid hmem
      show jid < σ.svc.nextId + 1
      rcases List.mem_append.mp hmem with hmem | hone
      · exact Nat.lt_succ_of_lt (hb _ hmem)
      · have : jid = σ.svc.nextId := by simpa using hone
        omega
  | dequeue jid rest req old now hcur hqeq hreq hold =>
    have hnd' : jid ∉ rest ∧ rest.Nodup := by
      rw [hqeq] at hnd
      simpa [List.nodup_cons] using hnd
    have hjlt : jid < σ.svc.nextId := hb _ (by rw [hqeq]; exact List.mem_cons_self _ _)
    refine ⟨hnd'.2, ?_, ?_, ?_, ?_⟩
    · intro j hmem
      have hne : j ≠ jid := fun he => hnd'.1 (he ▸ hmem)
      simp only [beginJob]
      rw [lookup_dictSet_ne _ _ hne]
      exact hq _ (by rw [hqeq]; exact List.mem_cons_of_mem _ hmem)
    · intro j hj
      have : j = jid := by simpa using hj.symm
      subst this
      exact ⟨hnd'.1, _, lookup_dictSet_self _ _ _, rfl⟩
    · intro j hle
      have hle' : σ.svc.nextId ≤ j := hle
      have hne : j ≠ jid := by omega
      simp only [beginJob]
      rw [lookup_dictSet_ne _ _ hne]
      exact hf _ hle
    · intro j hmem
      exact hb _ (by rw [hqeq]; exact List.mem_cons_of_mem _ hmem)
  | skip jid rest hcur hqeq hreq =>
    have hnd' : jid ∉ rest ∧ rest.Nodup := by
      rw [hqeq] at hnd
      simpa [List.nodup_cons] using hnd
    refine ⟨hnd'.2, ?_, ?_, hf, ?_⟩
    · intro j hmem
      exact hq _ (by rw [hqeq]; exact List.mem_cons_of_mem _ hmem)
    · intro j hj; cases hj
    · intro j hmem
      exact hb _ (by rw [hqeq]; exact List.mem_cons_of_mem _ hmem)
  | progress jid r hcur hlook =>
    obtain ⟨hnotq, r0, hr0, hrun0⟩ := hc jid hcur
    have hrr : r = r0 := by
      rw [hlook] at hr0
      exact Option.some_injective _ hr0
    have hjlt : jid < σ.svc.nextId := by
      by_contra hle
      rw [hf jid (by omega)] at hlook
      cases hlook
    refine ⟨hnd, ?_, ?_, ?_, hb⟩
    · intro j hmem
      have hne : j ≠ jid := fun he => hnotq (he ▸ hmem)
      simp only [setJobProgress]
      rw [lookup_dictSet_ne _ _ hne]
      exact hq _ hmem
    · intro j hj
      have : j = jid := by simpa using hj.symm
      subst this
      refine ⟨hnotq, _, lookup_dictSet_self _ _ _, ?_⟩
      rw [hrr]; exact hrun0
    · intro j hle
      have hle' : σ.svc.nextId ≤ j := hle
      have hne : j ≠ jid := by omega
      simp only [setJobProgress]
      rw [lookup_dictSet_ne _ _ hne]
      exact hf _ hle
  | finishOk jid r now files conf hcur hlook =>
    obtain ⟨hnotq, r0, hr0, hrun0⟩ := hc jid hcur
    have hjlt : jid < σ.svc.nextId := by
      by_contra hle
      rw [hf jid (by omega)] at hlook
      cases hlook
    refine ⟨hnd, ?_, ?_, ?_, hb⟩
    · intro j hmem
      have hne : j ≠ jid := fun he => hnotq (he ▸ hmem)
      simp only [completeJob]
      rw [lookup_dictSet_ne _ _ hne]
      exact hq _ hmem
    · intro j hj; cases hj
    · intro j hle
      have hle' : σ.svc.nextId ≤ j := hle
      have hne : j ≠ jid := by omega
      simp only [completeJob]
      rw [lookup_dictSet_ne _ _ hne]
      exact hf _ hle
  | finishErr jid r now msg hcur hlook =>
    obtain ⟨hnotq, r0, hr0, hrun0⟩ := hc jid hcur
    have hjlt : jid < σ.svc.nextId := by
      by_contra hle
      rw [hf jid (by omega)] at hlook
      cases hlook
    refine ⟨hnd, ?_, ?_, ?_, hb⟩
    · intro j hmem
      have hne : j ≠ jid := fun he => hnotq (he ▸ hmem)
      simp only [failJob]
      rw [lookup_dictSet_ne _ _ hne]
      exact hq _ hmem
    · intro j hj; cases hj
    · intro j hle
      have hle' : σ.svc.nextId ≤ j := hle
      have hne : j ≠ jid := by omega
      simp only [failJob]
      rw [lookup_dictSet_ne _ _ hne]
      exact hf _ hle

theorem reach_good {σ : SchedState} (h : Reach σ) : GoodState σ := by
  induction h with
  | refl => exact initSched_good
  | tail hr hstep ih => exact goodState_preserved ih hstep

/-- Allowed evolution of one job's stored record across a single step:
no record disappears; records are created only as `queued`; the only
status moves are `queued → running` and `running → {completed, failed}`;
a non-status mutation happens only while `running`; a terminal record is
not changed at all. -/
def StatusStep (before afterR : Option JobStatus) : Prop :=
  match before, afterR with
  | none, none => True
  | none, some r => r.status = .queued
  | some r, some r' =>
      r = r' ∨
      (r.status = .running ∧ r'.status = .running) ∨
      (r.status = .queued ∧ r'.status = .running) ∨
      (r.status = .running ∧ (r'.status = .completed ∨ r'.status = .failed))
  | some _, none => False

theorem statusStep_refl (x : Option JobStatus) : StatusStep x x := by
  cases x with
  | none => trivial
  | some r => exact Or.inl rfl

/-- C4: along every reachable transition of the backend, each job's
record is created as `queued` at submission, moves to `running` only
from `queued` (when the worker dequeues it), moves to a terminal state
only from `running`, and after reaching `completed` or `failed` is
never mutated again by any operation. -/
theorem job_lifecycle_state_machine (σ σ' : SchedState) (hσ : Reach σ)
    (hstep : SchedStep σ σ') :
    ∀ jid, StatusStep (σ.svc.jobs.lookup jid) (σ'.svc.jobs.lookup jid) := by
  obtain ⟨hnd, hq, hc, hf, hb⟩ := reach_good hσ
  intro j
  cases hstep with
  | submit req now =>
    simp only [submit_job]
    by_cases hj : j = σ.svc.nextId
    · subst hj
      rw [hf _ (le_refl _), lookup_dictSet_self]
      exact rfl
    · rw [lookup_dictSet_ne _ _ hj]
      exact statusStep_refl _
  | dequeue jid rest req old now hcur hqeq hreq hold =>
    simp only [beginJob]
    by_cases hj : j = jid
    · subst hj
      obtain ⟨r, hr, hrq⟩ := hq _ (by rw [hqeq]; exact List.mem_cons_self _ _)
      rw [hold, lookup_dictSet_self]
      have : old = r := by
        rw [hold] at hr
        exact Option.some_injective _ hr
      exact Or.inr (Or.inr (Or.inl ⟨this ▸ hrq, rfl⟩))
    · rw [lookup_dictSet_ne _ _ hj]
      exact statusStep_refl _
  | skip jid rest hcur hqeq hreq =>
    exact statusStep_refl _
  | progress jid r hcur hlook =>
    simp only [setJobProgress]
    by_cases hj : j = jid
    · subst hj
      obtain ⟨_, r0, hr0, hrun0⟩ := hc _ hcur
      have hrr : r = r0 := by
        rw [hlook] at hr0
        exact Option.some_injective _ hr0
      rw [hlook, lookup_dictSet_self]
      exact Or.inr (Or.inl ⟨hrr ▸ hrun0, hrr ▸ hrun0⟩)
    · rw [lookup_dictSet_ne _ _ hj]
      exact statusStep_refl _
  | finishOk jid r now files conf hcur hlook =>
    simp only [completeJob]
    by_cases hj : j = jid
    · subst hj
      obtain ⟨_, r0, hr0, hrun0⟩ := hc _ hcur
      have hrr : r = r0 := by
        rw [hlook] at hr0
        exact Option.some_injective _ hr0
      rw [hlook, lookup_dictSet_self]
      exact Or.inr (Or.inr (Or.inr ⟨hrr ▸ hrun0, Or.inl rfl⟩))
    · rw [lookup_dictSet_ne _ _ hj]
      exact statusStep_refl _
  | finishErr jid r now msg hcur hlook =>
    simp only [failJob]
    by_cases hj : j = jid
    · subst hj
      obtain ⟨_, r0, hr0, hrun0⟩ := hc _ hcur
      have hrr : r = r0 := by
        rw [hlook] at hr0
        exact Option.some_injective _ hr0
      rw [hlook, lookup_dictSet_self]
      exact Or.inr (Or.inr (Or.inr ⟨hrr ▸ hrun0, Or.inr rfl⟩))
    · rw [lookup_dictSet_ne _ _ hj]
      exact statusStep_refl _

/-- A reachable state: one job submitted at instant 5. -/
def schedEx1 : SchedState := ⟨(submit_job initWorker sampleProteinRequest 5).1, none⟩

/-- The state after the worker dequeues that job at instant 6. -/
def schedEx2 : SchedState :=
  ⟨beginJob { (submit_job initWorker sampleProteinRequest 5).1 with queue := [] }
    0 (queuedRecord 0 5) 6, some 0⟩

/-- Concrete run of C4: from the reachable state holding one queued
job, the worker's dequeue write is a legal `queued → running` move of
job 0's record. -/
theorem job_lifecycle_state_machine_witness :
    Reach schedEx1 ∧ SchedStep schedEx1 schedEx2 ∧
    StatusStep (schedEx1.svc.jobs.lookup 0) (schedEx2.svc.jobs.lookup 0) := by
  have hreach : Reach schedEx1 :=
    Relation.ReflTransGen.single (SchedStep.submit initSched sampleProteinRequest 5)
  have hstep : SchedStep schedEx1 schedEx2 :=
    SchedStep.dequeue schedEx1 0 [] sampleProteinRequest (queuedRecord 0 5) 6
      rfl rfl rfl rfl
  exact ⟨hreach, hstep, job_lifecycle_state_machine schedEx1 schedEx2 hreach hstep 0⟩

/-! ## Gateway router (api/app/routes/structure.py) -/

/-- The two backend services the gateway fronts, in its fixed probe
order `[PROTENIX_SERVICE_URL, ESM_SERVICE_URL]`. -/
inductive Backend : Type
  | protenix | esm
deriving DecidableEq, Repr

/-- `_get_service_url` (lines 24-31): model-name prefix convention,
defaulting to Protenix. -/
def getServiceBackend (model_name : String) : Backend :=
  if "protenix_".isPrefixOf model_name then .protenix
  else if "esm".isPrefixOf model_name then .esm
  else .protenix

/-- What the gateway's HTTP GET of a backend job-status endpoint can
observe. -/
inductive PollOutcome : Type
  | ok (body : JobStatus)
  | httpError (code : Nat) (detail : String)
  | connectError
deriving DecidableEq, Repr

/-- `_poll_service` (lines 102-115): a 200 yields the body; a failed
connection becomes a 503; any HTTP error status is forwarded with the
backend's code and detail. -/
def pollService (resp : PollOutcome) : Except (Nat × String) JobStatus :=
  match resp with
  | .ok b => .ok b
  | .connectError => .error (503, "GPU service is not available.")
  | .httpError code detail => .error (code, detail)

/-- The fallback probe of `get_job_status` (lines 89-99): try backends
in order; a 404 advances to the next backend; any other error is
re-raised, aborting the probe; exhaustion yields 404. The winning
backend is returned as the new ownership-cache entry. -/
def probeStatus (resp : Backend → PollOutcome) :
    List Backend → Except (Nat × String) (JobStatus × Backend)
  | [] => .error (404, "Job not found")
  | b :: rest =>
    match pollService (resp b) with
    | .ok r => .ok (r, b)
    | .error e => if e.1 = 404 then probeStatus resp rest else .error e

/-- `get_job_status` (lines 79-99): query the cached owner if any, else
probe Protenix then ESM.  The second component of a success is the
resulting ownership-cache entry for this job id. -/
def gatewayGetJobStatus (cache : Option Backend) (resp : Backend → PollOutcome) :
    Except (Nat × String) (JobStatus × Option Backend) :=
  match cache with
  | some b =>
    match pollService (resp b) with
    | .ok r => .ok (r, some b)
    | .error e => .error e
  | none =>
    match probeStatus resp [.protenix, .esm] with
    | .ok (r, b) => .ok (r, some b)
    | .error e => .error e

/-- C5 counterexample: job id unknown to the ownership cache, the
Protenix backend unreachable and ESM reporting NotFound.  The claim
says the gateway returns NotFound; the code re-raises the 503 from the
unreachable backend and never probes further. -/
theorem gateway_probe_unreachable_counterexample :
    gatewayGetJobStatus none
      (fun b => match b with
        | .protenix => .connectError
        | .esm => .httpError 404 "Job not found") =
      .error (503, "GPU service is not available.") ∧
    (503 : Nat) ≠ 404 :=
  ⟨rfl, by decide⟩

/-- C5 as amended: for an uncached job id the gateway probes Protenix
then ESM; the first success wins and becomes the cached owner; a 404
advances the probe; both answering 404 yields 404 to the client — but
an unreachable backend aborts the probe with a 503 instead of advancing
to the next backend. -/
theorem gateway_status_probe_order (resp : Backend → PollOutcome) :
    (∀ r, resp .protenix = .ok r →
      gatewayGetJobStatus none resp = .ok (r, some .protenix)) ∧
    (∀ d r, resp .protenix = .httpError 404 d → resp .esm = .ok r →
      gatewayGetJobStatus none resp = .ok (r, some .esm)) ∧
    (∀ d d2, resp .protenix = .httpError 404 d → resp .esm = .httpError 404 d2 →
      gatewayGetJobStatus none resp = .error (404, "Job not found")) ∧
    (resp .protenix = .connectError →
      gatewayGetJobStatus none resp = .error (503, "GPU service is not available.")) ∧
    (∀ d, resp .protenix = .httpError 404 d → resp .esm = .connectError →
      gatewayGetJobStatus none resp = .error (503, "GPU service is not available.")) := by
  refine ⟨?_, ?_, ?_, ?_, ?_⟩
  · intro r h
    simp [gatewayGetJobStatus, probeStatus, pollService, h]
  · intro d r h1 h2
    simp [gatewayGetJobStatus, probeStatus, pollService, h1, h2]
  · intro d d2 h1 h2
    simp [gatewayGetJobStatus, probeStatus, pollService, h1, h2]
  · intro h
    simp [gatewayGetJobStatus, probeStatus, pollService, h]
  · intro d h1 h2
    simp [gatewayGetJobStatus, probeStatus, pollService, h1, h2]

/-- Concrete run of the amended C5: both backends report NotFound and
the gateway returns NotFound. -/
theorem gateway_status_probe_order_witness :
    (fun b => match b with
      | Backend.protenix => PollOutcome.httpError 404 "Job not found"
      | Backend.esm => PollOutcome.httpError 404 "Job not found") Backend.protenix =
      PollOutcome.httpError 404 "Job not found" ∧
    gatewayGetJobStatus none
      (fun b => match b with
        | Backend.protenix => PollOutcome.httpError 404 "Job not found"
        | Backend.esm => PollOutcome.httpError 404 "Job not found") =
      .error (404, "Job not found") := by
  refine ⟨rfl, ?_⟩
  exact (gateway_status_probe_order _).2.2.1 "Job not found" "Job not found" rfl rfl

/-! ## Artifact download (backends and gateway) -/

/-- Render a status value the way the f-string in the backend download
endpoints does. -/
def statusText : Status → String
  | .queued => "queued"
  | .running => "running"
  | .completed => "completed"
  | .failed => "failed"

/-- What one backend structure-download endpoint returns. -/
inductive DownloadResult : Type
  | fileBytes (path : String) (media : String)
  | err (code : Nat) (detail : String)
deriving DecidableEq, Repr

/-- `download_structure` of protenix-service/app/main.py (lines
118-149): missing job → 404; job not completed → 400 (NotReady);
missing output dir → 404; no CIF in the output dir → 404; else serve
the best-ranked CIF. -/
def protenixDownloadStructure (s : WorkerSvc) (jid : Nat) : DownloadResult :=
  match s.jobs.lookup jid with
  | none => .err 404 "Job not found"
  | some st =>
    if st.status ≠ .completed then
      .err 400 ("Job is not completed (status: " ++ statusText st.status ++ ")")
    else
      match s.outputDirs.lookup jid with
      | none => .err 404 "Output directory not found"
      | some files =>
        match files.filter (fun f => f.endsWith ".cif") with
        | [] => .err 404 "No structure file found"
        | c :: cs =>
          match ((c :: cs).filter containsRank).mergeSort (fun a b => a ≤ b) with
          | [] => .fileBytes c "chemical/x-mmcif"
          | r :: _ => .fileBytes r "chemical/x-mmcif"

/-- `download_structure` of esm-service/app/main.py (lines 113-149):
same shape; tries CIF first, then PDB. -/
def esmDownloadStructure (s : WorkerSvc) (jid : Nat) : DownloadResult :=
  match s.jobs.lookup jid with
  | none => .err 404 "Job not found"
  | some st =>
    if st.status ≠ .completed then
      .err 400 ("Job is not completed (status: " ++ statusText st.status ++ ")")
    else
      match s.outputDirs.lookup jid with
      | none => .err 404 "Output directory not found"
      | some files =>
        match files.filter (fun f => f.endsWith ".cif") with
        | c :: _ => .fileBytes c "chemical/x-mmcif"
        | [] =>
          match files.filter (fun f => f.endsWith ".pdb") with
          | p :: _ => .fileBytes p "chemical/x-pdb"
          | [] => .err 404 "No structure file found"

/-- What the gateway's HTTP GET of a backend structure endpoint can
observe. -/
inductive FetchOutcome : Type
  | ok (content : String) (media : String)
  | status (code : Nat) (detail : String)
  | connectError
deriving DecidableEq, Repr

/-- The wire view of a backend download result. -/
def fetchOfDownload : DownloadResult → FetchOutcome
  | .fileBytes c m => .ok c m
  | .err code detail => .status code detail

/-- The uncached probe of the gateway `download_structure` (lines
123-143): only a 200 response wins; a connection error and every
non-200 status alike just advance to the next backend; exhaustion
yields a 404. -/
def probeDownload (resp : Backend → FetchOutcome) :
    List Backend → DownloadResult
  | [] => .err 404 "Structure not found"
  | b :: rest =>
    match resp b with
    | .ok content media => .fileBytes content media
    | _ => probeDownload resp rest

/-- Gateway `download_structure` (lines 118-162): with a cached owner,
forward its 200 body or its error code and detail (503 when
unreachable); without one, run the 200-only probe. -/
def gatewayDownloadStructure (cache : Option Backend)
    (resp : Backend → FetchOutcome) : DownloadResult :=
  match cache with
  | some b =>
    match resp b with
    | .ok content media => .fileBytes content media
    | .connectError => .err 503 "GPU service is not available."
    | .status code detail => .err code detail
  | none => probeDownload resp [.protenix, .esm]

/-- A backend state holding exactly one job, in `running` state. -/
def runningOnlySvc : WorkerSvc :=
  ⟨[(0, runningRecord (queuedRecord 0 5) 0 6)], [(0, sampleProteinRequest)], [], [], 1⟩

/-- C6 counterexample: job 0 exists in `running` state on the Protenix
backend, and that backend answers the download probe with its 400
NotReady response; but the job id is not in the gateway's ownership
cache, and the gateway returns 404 "Structure not found" — NotFound,
not NotReady — contradicting the claim's "including when the request
arrives at the gateway for a job id not present in its ownership
cache". -/
theorem download_notready_counterexample :
    protenixDownloadStructure runningOnlySvc 0 =
      .err 400 "Job is not completed (status: running)" ∧
    gatewayDownloadStructure none
      (fun b => match b with
        | .protenix => fetchOfDownload (protenixDownloadStructure runningOnlySvc 0)
        | .esm => .status 404 "Job not found") =
      .err 404 "Structure not found" ∧
    (400 : Nat) ≠ 404 :=
  ⟨rfl, rfl, by decide⟩

/-- C6 as amended: each backend answers a download for an existing
non-completed job with a 400 "Job is not completed" — distinct from the
404 NotFound — and a gateway request whose job id has a cached owner
forwards that 400 unchanged; but a gateway request for a job id absent
from the ownership cache never surfaces NotReady: whenever no backend
returns a 200, the uncached path returns 404 "Structure not found",
even if a backend responded NotReady. -/
theorem download_notready_vs_notfound :
    (∀ (s : WorkerSvc) (jid : Nat) (st : JobStatus),
      s.jobs.lookup jid = some st → st.status ≠ .completed →
      protenixDownloadStructure s jid =
        .err 400 ("Job is not completed (status: " ++ statusText st.status ++ ")") ∧
      esmDownloadStructure s jid =
        .err 400 ("Job is not completed (status: " ++ statusText st.status ++ ")")) ∧
    (∀ (b : Backend) (code : Nat) (detail : String) (resp : Backend → FetchOutcome),
      resp b = .status code detail →
      gatewayDownloadStructure (some b) resp = .err code detail) ∧
    (∀ resp : Backend → FetchOutcome,
      (∀ b content media, resp b ≠ .ok content media) →
      gatewayDownloadStructure none resp = .err 404 "Structure not found") := by
  refine ⟨?_, ?_, ?_⟩
  · intro s jid st hst hne
    constructor
    · unfold protenixDownloadStructure
      rw [hst]
      simp [hne]
    · unfold esmDownloadStructure
      rw [hst]
      simp [hne]
  · intro b code detail resp h
    simp [gatewayDownloadStructure, h]
  · intro resp h
    have hp := h .protenix
    have he := h .esm
    simp only [gatewayDownloadStructure, probeDownload]

/-- Concrete run of the amended C6: the running job's NotReady from the
backend, forwarded by a gateway that has the owner cached. -/
theorem download_notready_vs_notfound_witness :
    runningOnlySvc.jobs.lookup 0 = some (runningRecord (queuedRecord 0 5) 0 6) ∧
    protenixDownloadStructure runningOnlySvc 0 =
      .err 400 "Job is not completed (status: running)" ∧
    gatewayDownloadStructure (some .protenix)
      (fun _ => fetchOfDownload (protenixDownloadStructure runningOnlySvc 0)) =
      .err 400 "Job is not completed (status: running)" := by
  refine ⟨rfl, ?_, ?_⟩
  · exact ((download_notready_vs_notfound.1 runningOnlySvc 0
      (runningRecord (queuedRecord 0 5) 0 6) rfl (by decide)).1)
  · exact download_notready_vs_notfound.2.1 .protenix 400
      "Job is not completed (status: running)"
      (fun _ => fetchOfDownload (protenixDownloadStructure runningOnlySvc 0)) rfl

/-! ## Gateway submit payload (C7) -/

/-- `StructurePredictRequest` (api/app/schemas/structure.py, lines
25-59).  Its declared fields are `name`, `chains`, `model_name` and
`num_samples`; it has no `num_seeds` field. -/
structure StructurePredictRequest : Type where
  name : String := "prediction"
  chains : List ChainInput
  model_name : String := "protenix_base_default_v1.0.0"
  num_samples : Nat := 5
deriving DecidableEq, Repr

/-- A submit body as a client can send it over the wire, including a
requested seed count (spec section 6 submit request). -/
structure ClientSubmitBody : Type where
  name : String
  chains : List ChainInput
  model_name : String
  num_seeds : Nat
  num_samples : Nat
deriving DecidableEq, Repr

/-- Pydantic parsing of the gateway schema: only the fields declared on
`StructurePredictRequest` are read; unknown keys such as `num_seeds`
are ignored (pydantic defaults to ignoring extra fields). -/
def parseStructurePredictRequest (c : ClientSubmitBody) : StructurePredictRequest :=
  { name := c.name, chains := c.chains, model_name := c.model_name,
    num_samples := c.num_samples }

/-- The JSON payload `predict_structure` (lines 42-48) posts to the
chosen backend, as the backend parses it: `num_seeds` is the literal
constant 1. -/
def predictPayload (r : StructurePredictRequest) : PredictionRequest :=
  { name := r.name, sequences := r.chains, model_name := r.model_name,
    num_seeds := 1, num_samples := r.num_samples }

/-- A client submit body asking for 7 seeds. -/
def clientSevenSeeds : ClientSubmitBody :=
  { name := "t1"
  , chains := [{ type := .protein, sequence := some "MVSK" }]
  , model_name := "protenix_base_default_v1.0.0"
  , num_seeds := 7
  , num_samples := 5 }

/-- C7 counterexample: a client submits `num_seeds = 7`; the payload the
gateway forwards carries `num_seeds = 1` — the client's seed count is
not forwarded. -/
theorem num_seeds_not_forwarded_counterexample :
    clientSevenSeeds.num_seeds = 7 ∧
    (predictPayload (parseStructurePredictRequest clientSevenSeeds)).num_seeds = 1 ∧
    (1 : Nat) ≠ 7 :=
  ⟨rfl, rfl, by decide⟩

/-- C7 as amended: the gateway schema has no `num_seeds` field, so a
client-supplied seed count is dropped at parse time, and the payload
forwarded to the backend always carries the constant `num_seeds = 1`;
`name`, `chains`, `model_name` and `num_samples` are forwarded as
supplied. -/
theorem gateway_replaces_num_seeds (c : ClientSubmitBody) :
    (predictPayload (parseStructurePredictRequest c)).num_seeds = 1 ∧
    (predictPayload (parseStructurePredictRequest c)).num_samples = c.num_samples ∧
    (predictPayload (parseStructurePredictRequest c)).model_name = c.model_name ∧
    (predictPayload (parseStructurePredictRequest c)).sequences = c.chains ∧
    (predictPayload (parseStructurePredictRequest c)).name = c.name :=
  ⟨rfl, rfl, rfl, rfl, rfl⟩

/-! ## Preload endpoint (C8) -/

/-- Reply status of the preload endpoint. -/
inductive PreloadStatus : Type
  | loading | already_loaded
deriving DecidableEq, Repr

/-- Endpoint outcome. -/
inductive PreloadReply : Type
  | badRequest (detail : String)
  | ok (model_name : String) (status : PreloadStatus)
deriving DecidableEq, Repr

/-- State read by the preload endpoint: `get_loaded_model()` and
`is_preloading()`. -/
structure PreloadState : Type where
  loaded : Option String
  preloading : Bool
deriving DecidableEq, Repr

/-- `preload_model_endpoint` (esm-service/app/main.py lines 158-187;
the Protenix twin in protenix-service/app/main.py lines 158-194 is
identical up to the catalog): catalog check, already-loaded fast reply,
in-progress fast reply, otherwise schedule the background
`preload_model` task — which runs the same ensureLoaded path — and
report loading.  The boolean returned alongside the reply records
whether a background load task was scheduled. -/
def preload_model_endpoint (catalog : List String) (s : PreloadState)
    (m : String) : PreloadReply × Bool :=
  if m ∉ catalog then
    (.badRequest ("Unknown model " ++ m), false)
  else if s.loaded = some m then
    (.ok m .already_loaded, false)
  else if s.preloading then
    (.ok m .loading, false)
  else
    (.ok m .loading, true)

/-- C8: for a catalogued model name, the preload endpoint replies
already-loaded without scheduling anything when the model is resident;
replies loading without scheduling a second load when any preload is
already in progress (single in-flight load); and otherwise schedules
exactly one background load — the ensureLoaded path — and replies
loading. -/
theorem preload_single_inflight (catalog : List String) (s : PreloadState)
    (m : String) (hm : m ∈ catalog) :
    (s.loaded = some m →
      preload_model_endpoint catalog s m = (.ok m .already_loaded, false)) ∧
    (s.loaded ≠ some m → s.preloading = true →
      preload_model_endpoint catalog s m = (.ok m .loading, false)) ∧
    (s.loaded ≠ some m → s.preloading = false →
      preload_model_endpoint catalog s m = (.ok m .loading, true)) := by
  refine ⟨?_, ?_, ?_⟩
  · intro h
    simp [preload_model_endpoint, hm, h]
  · intro h hp
    simp [preload_model_endpoint, hm, h, hp]
  · intro h hp
    simp [preload_model_endpoint, hm, h, hp]

/-- Concrete run of C8: a preload of the base model is in progress and
a second preload request for the mini model observes loading without a
second load being scheduled. -/
theorem preload_single_inflight_witness :
    "protenix_mini_esm_v0.5.0" ∈ protenixModelNames ∧
    preload_model_endpoint protenixModelNames
        ⟨some "protenix_base_default_v1.0.0", true⟩ "protenix_mini_esm_v0.5.0" =
      (.ok "protenix_mini_esm_v0.5.0" .loading, false) := by
  refine ⟨by decide, ?_⟩
  exact (preload_single_inflight protenixModelNames
    ⟨some "protenix_base_default_v1.0.0", true⟩ "protenix_mini_esm_v0.5.0"
    (by decide)).2.1 (by decide) rfl

/-! ## Backend submit validation (C9) -/

/-- Render a chain type the way the f-string in the validation error
does. -/
def chainTypeText : ChainType → String
  | .protein => "protein"
  | .dna => "dna"
  | .rna => "rna"
  | .ligand => "ligand"
  | .ion => "ion"

/-- The validation applied to one chain by the loop in
protenix-service/app/main.py `submit_prediction` (lines 88-103);
returns the detail of the first failing check, if any. -/
def protenixChainError (c : ChainInput) : Option String :=
  if (c.type = .protein ∨ c.type = .dna ∨ c.type = .rna) ∧ optStrBlank c.sequence then
    some ("Sequence is required for chain type " ++ chainTypeText c.type)
  else if c.type = .ligand ∧ optStrBlank c.ligand_id then
    some "ligand_id (CCD code or SMILES) is required for ligand chains"
  else if c.type = .ion ∧ optStrBlank c.ion_id then
    some "ion_id is required for ion chains"
  else none

/-- The loop raises at the first invalid chain. -/
def firstChainError : List ChainInput → Option String
  | [] => none
  | c :: rest =>
    match protenixChainError c with
    | some d => some d
    | none => firstChainError rest

/-- Result of a backend submit endpoint. -/
inductive SubmitResult : Type
  | accepted (job_id : Nat) (record : JobStatus)
  | rejected (code : Nat) (detail : String)
deriving DecidableEq, Repr

/-- `submit_prediction` of protenix-service/app/main.py (lines 74-106):
catalog check, per-chain validation, then `submit_job` and an immediate
status read.  Returns the response and the resulting module state. -/
def protenixSubmitPrediction (s : WorkerSvc) (req : PredictionRequest)
    (now : Nat) : SubmitResult × WorkerSvc :=
  if req.model_name ∉ protenixModelNames then
    (.rejected 400 ("Unknown model " ++ req.model_name), s)
  else
    match firstChainError req.sequences with
    | some d => (.rejected 400 d, s)
    | none =>
      let p := submit_job s req now
      match p.1.jobs.lookup p.2 with
      | some r => (.accepted p.2 r, p.1)
      | none => (.rejected 404 "Job not found", p.1)

/-- `submit_prediction` of esm-service/app/main.py (lines 74-101):
catalog check, then require at least one protein chain and non-empty
sequences on the protein chains.  Non-protein chains are not validated
at all. -/
def esmSubmitPrediction (s : WorkerSvc) (req : PredictionRequest)
    (now : Nat) : SubmitResult × WorkerSvc :=
  if req.model_name ∉ esmModelNames then
    (.rejected 400 ("Unknown model " ++ req.model_name), s)
  else if req.sequences.filter (fun c => c.type = .protein) = [] then
    (.rejected 400 "ESMFold requires at least one protein chain.", s)
  else if (req.sequences.filter (fun c => c.type = .protein)).any
      (fun c => optStrBlank c.sequence) then
    (.rejected 400 "Protein sequence is required.", s)
  else
    let p := submit_job s req now
    match p.1.jobs.lookup p.2 with
    | some r => (.accepted p.2 r, p.1)
    | none => (.rejected 404 "Job not found", p.1)

theorem firstChainError_isSome {l : List ChainInput} {c : ChainInput}
    (hc : c ∈ l) (he : protenixChainError c ≠ none) :
    firstChainError l ≠ none := by
  induction l with
  | nil => cases hc
  | cons c0 rest ih =>
    rcases List.mem_cons.mp hc with rfl | hrest
    · unfold firstChainError
      cases hx : protenixChainError c with
      | none => exact absurd hx he
      | some d => simp
    · unfold firstChainError
      cases hx : protenixChainError c0 with
      | none => exact ih hrest
      | some d => simp

/-- A request mixing a valid protein chain with a ligand chain that has
no ligand identifier. -/
def mixedLigandRequest : PredictionRequest :=
  { name := "mix"
  , sequences := [ { type := .protein, sequence := some "MVSK" }
                 , { type := .ligand } ]
  , model_name := "esmfold_v1"
  , num_seeds := 1
  , num_samples := 1 }

/-- C9 counterexample: `mixedLigandRequest` contains a ligand chain
with no `ligand_id`, yet the ESM backend accepts it — a job record is
created and a job id returned — because the ESM submit endpoint only
validates protein chains. -/
theorem ligand_without_id_counterexample :
    (∃ c ∈ mixedLigandRequest.sequences,
      c.type = .ligand ∧ c.ligand_id = none) ∧
    (esmSubmitPrediction initWorker mixedLigandRequest 0).1 =
      .accepted 0 (queuedRecord 0 0) ∧
    (esmSubmitPrediction initWorker mixedLigandRequest 0).2.jobs.lookup 0 =
      some (queuedRecord 0 0) :=
  ⟨by decide, by rfl, by rfl⟩

/-- C9 as amended: the Protenix backend rejects any request containing
a ligand chain without a ligand identifier synchronously with a 400 and
leaves the module state untouched (no job record, no job id); the ESM
backend validates only protein chains, so the same ligand chain passes
there, and a catalogued request whose protein chains are well-formed is
accepted with a job id despite it. -/
theorem ligand_without_id_validation
    (s : WorkerSvc) (req : PredictionRequest) (now : Nat)
    (hlig : ∃ c ∈ req.sequences, c.type = .ligand ∧ optStrBlank c.ligand_id) :
    (∃ d, (protenixSubmitPrediction s req now).1 = .rejected 400 d ∧
      (protenixSubmitPrediction s req now).2 = s) ∧
    (req.model_name ∈ esmModelNames →
      req.sequences.filter (fun c => c.type = .protein) ≠ [] →
      (req.sequences.filter (fun c => c.type = .protein)).any
        (fun c => optStrBlank c.sequence) = false →
      ∃ jid r, (esmSubmitPrediction s req now).1 = .accepted jid r ∧
        r.status = .queued) := by
  constructor
  · obtain ⟨c, hc, hl, hb⟩ := hlig
    have herr : protenixChainError c ≠ none := by
      unfold protenixChainError
      rw [hl]
      by_cases hseq : (ChainType.ligand = ChainType.protein ∨
          ChainType.ligand = ChainType.dna ∨ ChainType.ligand = ChainType.rna) ∧
          optStrBlank c.sequence
      · exact absurd hseq.1 (by decide)
      · simp only [hseq, if_false]
        simp [hb]
    have hfirst : firstChainError req.sequences ≠ none :=
      firstChainError_isSome hc herr
    unfold protenixSubmitPrediction
    by_cases hm : req.model_name ∈ protenixModelNames
    · simp only [hm, not_true, if_false]
      cases hx : firstChainError req.sequences with
      | none => exact absurd hx hfirst
      | some d => exact ⟨d, by simp [hx], by simp [hx]⟩
    · refine ⟨"Unknown model " ++ req.model_name, ?_, ?_⟩ <;> simp [hm]
  · intro hm hne hseq
    unfold esmSubmitPrediction
    simp only [hm, not_true, if_false, hne, hseq, if_false]
    refine ⟨(submit_job s req now).2, queuedRecord s.nextId now, ?_, rfl⟩
    have : (submit_job s req now).1.jobs.lookup (submit_job s req now).2 =
        some (queuedRecord s.nextId now) := by
      simp [submit_job]
    simp [this, submit_job]

/-- Concrete run of the amended C9: the Protenix backend rejects the
mixed request (under its catalog the model name is unknown, and with a
catalogued name the ligand check fires); the ESM backend accepts it. -/
theorem ligand_without_id_validation_witness :
    (∃ c ∈ mixedLigandRequest.sequences,
      c.type = .ligand ∧ optStrBlank c.ligand_id) ∧
    (∃ d, (protenixSubmitPrediction initWorker
        { mixedLigandRequest with model_name := "protenix_base_default_v1.0.0" }
        0).1 = .rejected 400 d ∧
      (protenixSubmitPrediction initWorker
        { mixedLigandRequest with model_name := "protenix_base_default_v1.0.0" }
        0).2 = initWorker) ∧
    (∃ jid r, (esmSubmitPrediction initWorker mixedLigandRequest 0).1 =
        .accepted jid r ∧ r.status = .queued) := by
  refine ⟨by decide, ?_, ?_⟩
  · exact (ligand_without_id_validation initWorker
      { mixedLigandRequest with model_name := "protenix_base_default_v1.0.0" }
      0 (by decide)).1
  · exact (ligand_without_id_validation initWorker mixedLigandRequest 0
      (by decide)).2 (by decide) (by decide) (by decide)

/-! ## Completed jobs without an artifact (C10) -/

/-- C10: when the predictor finishes but leaves no CIF file in the
job's output directory, the worker still records the `completed`
transition with `structure_available = false`, and a subsequent
download for that completed job returns 404 "No structure file found"
instead of bytes — `completed` does not imply an artifact exists. -/
theorem completed_without_structure
    (exec : Nat → PredictionRequest → ExecOutcome) (s : WorkerSvc)
    (jid now : Nat) (req : PredictionRequest) (files : List String)
    (conf : Option ConfidenceScores)
    (hreq : s.requests.lookup jid = some req)
    (hjob : (s.jobs.lookup jid).isSome)
    (hexec : exec jid req = .ok files conf)
    (hnoc : files.filter (fun f => f.endsWith ".cif") = []) :
    ∃ r, (processJob exec s jid now).jobs.lookup jid = some r ∧
      r.status = .completed ∧ r.structure_available = false ∧
      protenixDownloadStructure (processJob exec s jid now) jid =
        .err 404 "No structure file found" := by
  rcases Option.isSome_iff_exists.mp hjob with ⟨old, hold⟩
  have hcif : findOutputCif files = none := by
    unfold findOutputCif
    rw [hnoc]
  have hpj : processJob exec s jid now =
      { s with
        outputDirs := dictSet s.outputDirs jid files,
        jobs := dictSet (dictSet s.jobs jid (runningRecord old jid now)) jid
          (completedRecord (runningRecord old jid now) jid (now + 1) conf
            (findOutputCif files).isSome) } := by
    unfold processJob
    rw [hreq, hold]
    dsimp only
    rw [hexec]
  refine ⟨completedRecord (runningRecord old jid now) jid (now + 1) conf
    (findOutputCif files).isSome, ?_, rfl, ?_, ?_⟩
  · rw [hpj]
    exact lookup_dictSet_self _ _ _
  · simp [completedRecord, hcif]
  · rw [hpj]
    simp only [protenixDownloadStructure, lookup_dictSet_self, hnoc]
    simp [completedRecord]

/-- Concrete run of C10: a submitted job whose predictor returns
normally but writes no files ends `completed` with
`structure_available = false`, and its download yields 404 "No
structure file found". -/
theorem completed_without_structure_witness :
    ((submit_job initWorker sampleProteinRequest 0).1.requests.lookup 0 =
      some sampleProteinRequest) ∧
    (∃ r, (processJob (fun _ _ => .ok [] none)
        (submit_job initWorker sampleProteinRequest 0).1 0 1).jobs.lookup 0 =
        some r ∧
      r.status = .completed ∧ r.structure_available = false ∧
      protenixDownloadStructure
        (processJob (fun _ _ => .ok [] none)
          (submit_job initWorker sampleProteinRequest 0).1 0 1) 0 =
        .err 404 "No structure file found") := by
  refine ⟨by decide, ?_⟩
  exact completed_without_structure (fun _ _ => .ok [] none)
    (submit_job initWorker sampleProteinRequest 0).1 0 1 sampleProteinRequest
    [] none (by decide) (by decide) rfl rfl

/-! ## The legacy Protenix worker loads a fixed model (C3) -/

/-- State of the legacy single-runner module
(protenix-service/app/prediction_worker.py): the lazily initialized
`_runner`, represented by the model name it was built with. -/
structure LegacyRunnerState : Type where
  loaded : Option String
deriving DecidableEq, Repr

/-- `_get_runner` (protenix-service/app/prediction_worker.py, lines
30-51): takes no model argument; if no runner exists yet it builds one
for the fixed model `protenix_base_default_v1.0.0`.  Returns the new
state and the model name of the returned runner. -/
def legacy_get_runner (s : LegacyRunnerState) : LegacyRunnerState × String :=
  match s.loaded with
  | some m => (s, m)
  | none =>
      (⟨some "protenix_base_default_v1.0.0"⟩, "protenix_base_default_v1.0.0")

/-- The model-loading step (c) of the legacy `_worker_loop`
(protenix-service/app/prediction_worker.py, lines 221-234): it calls
`_get_runner()` with no argument — the dequeued job's
`request.model_name` is not consulted. -/
def legacyWorkerLoadModel (s : LegacyRunnerState) (_req : PredictionRequest) :
    LegacyRunnerState × String :=
  legacy_get_runner s

/-- C3 counterexample: a job requesting `protenix_mini_esm_v0.5.0`
processed by the legacy worker from a fresh state ends with the fixed
default model resident — not the requested one. -/
theorem requested_model_counterexample :
    sampleProteinRequest.model_name = "protenix_mini_esm_v0.5.0" ∧
    (legacyWorkerLoadModel ⟨none⟩ sampleProteinRequest).2 =
      "protenix_base_default_v1.0.0" ∧
    (legacyWorkerLoadModel ⟨none⟩ sampleProteinRequest).1.loaded =
      some "protenix_base_default_v1.0.0" ∧
    "protenix_base_default_v1.0.0" ≠ "protenix_mini_esm_v0.5.0" :=
  ⟨rfl, rfl, rfl, by decide⟩

/-- C3 as amended: in services/protenix the worker's step (c) makes
exactly the requested model resident (`get_runner request.model_name`);
but the legacy worker in protenix-service calls a zero-argument
`_get_runner` whose result is independent of the request, and from a
fresh state it always initializes the fixed default
`protenix_base_default_v1.0.0` whatever model the job requested. -/
theorem worker_loads_requested_model :
    (∀ (s : ResidencyState) (m : String) (tr : List ResidencyState),
      ResidencyInv s → get_runner s m = .ok tr →
      (tr.getLastD s).loaded = some m) ∧
    (∀ (s : LegacyRunnerState) (req req2 : PredictionRequest),
      legacyWorkerLoadModel s req = legacyWorkerLoadModel s req2) ∧
    (∀ req : PredictionRequest,
      (legacyWorkerLoadModel ⟨none⟩ req).1.loaded =
        some "protenix_base_default_v1.0.0") := by
  refine ⟨?_, ?_, ?_⟩
  · intro s m tr hinv h
    exact (ensureLoaded_residency protenixModelNames s m tr hinv h).2.1
  · intro s req req2
    rfl
  · intro req
    rfl

/-- Concrete run of the amended C3: the current worker makes the
requested mini model resident; the legacy worker loads the fixed
default for the same request. -/
theorem worker_loads_requested_model_witness :
    ResidencyInv ⟨none, []⟩ ∧
    get_runner ⟨none, []⟩ "protenix_mini_esm_v0.5.0" =
      .ok [⟨none, []⟩, ⟨some "protenix_mini_esm_v0.5.0", ["protenix_mini_esm_v0.5.0"]⟩] ∧
    (([⟨none, []⟩, ⟨some "protenix_mini_esm_v0.5.0", ["protenix_mini_esm_v0.5.0"]⟩]
        : List ResidencyState).getLastD ⟨none, []⟩).loaded =
      some "protenix_mini_esm_v0.5.0" ∧
    (legacyWorkerLoadModel ⟨none⟩ sampleProteinRequest).1.loaded =
      some "protenix_base_default_v1.0.0" := by
  refine ⟨by decide, by rfl, ?_, ?_⟩
  · exact worker_loads_requested_model.1 ⟨none, []⟩ "protenix_mini_esm_v0.5.0"
      [⟨none, []⟩, ⟨some "protenix_mini_esm_v0.5.0", ["protenix_mini_esm_v0.5.0"]⟩]
      (by decide) (by rfl)
  · exact worker_loads_requested_model.2.2 sampleProteinRequest

end Tenbio
